import Mathlib

/-!
Verification of the asset acquisition and verification subsystem of the
Ubuntu-FAI build tool (package/script downloaders with caching and
verification, retrying fetcher, and the local asset scanner with its
manifest protocol).

The Python sources are shallowly embedded:
* file contents are `List Nat` (byte sequences); the filesystem is a map
  from path strings to optional file data (content plus executable bit);
* the SHA-256 / MD5 functions are parameters of every definition (the
  code only ever compares their hex-string outputs for equality);
* one HTTP GET is modelled by an attempt-indexed oracle `net : Nat →
  NetOutcome`; a failed GET may leave a partial file at the destination,
  which the oracle reports;
* exceptions are values of an explicit exception type threaded through
  `Except`.
Every definition mirrors the control flow of the function of the same
name in `src/downloaders/packages.py`, `src/downloaders/scripts.py`,
`src/downloaders/utils.py` and `src/utils/asset_scanner.py`.
-/

namespace UbuntuFAI

/-- Byte content of a file. -/
abbrev Content := List Nat

/-- Data stored at one filesystem path: content and the executable bit
(the only pieces of file state the embedded code inspects). -/
structure FileData where
  content : Content
  exec : Bool
  deriving DecidableEq, Repr

/-- The filesystem: a map from path strings to optional file data. -/
def FS := String → Option FileData

/-- Write `d` at path `p` (models `open(p, 'wb')` followed by writing). -/
def fsWrite (fs : FS) (p : String) (d : FileData) : FS :=
  fun q => if q = p then some d else fs q

/-- Remove the file at path `p` (models `Path(p).unlink()`, guarded by an
existence check in the sources, so erasing an absent file is a no-op). -/
def fsErase (fs : FS) (p : String) : FS :=
  fun q => if q = p then none else fs q

/-- Set the executable bit at `p` (models `_set_executable`, i.e.
`chmod` adding `S_IEXEC | S_IXGRP | S_IXOTH`). -/
def fsSetExec (fs : FS) (p : String) : FS :=
  fun q => if q = p then (fs p).map (fun d => { d with exec := true }) else fs q

/-- Exceptions the embedded code can raise.  `requests.RequestException`
(and other IO errors) from a single GET, `DownloadError` from
`download_with_retry`, and `ValueError` from verification. -/
inductive PyExc where
  | requestException (msg : String)
  | downloadError (msg : String)
  | valueError (msg : String)
  deriving DecidableEq, Repr

/-- Outcome of one HTTP GET attempt: either the full body, or a network
error, possibly leaving a partially written file (`leftover`) at the
destination that was being streamed to. -/
inductive NetOutcome where
  | ok (content : Content)
  | err (leftover : Option Content) (msg : String)
  deriving DecidableEq, Repr

/-- Whether a network attempt outcome is an error. -/
def NetOutcome.isErr : NetOutcome → Bool
  | .ok _ => false
  | .err _ _ => true

/-- Error message carried by a failed attempt (`""` for a success). -/
def NetOutcome.errMsg : NetOutcome → String
  | .ok _ => ""
  | .err _ m => m

/-- Splitting of a character list at `/` separators (structural helper
for `pathName`; the accumulator holds the current component reversed). -/
def splitSlash : List Char → List Char → List String
  | [], acc => [String.mk acc.reverse]
  | c :: rest, acc =>
      if c = '/' then String.mk acc.reverse :: splitSlash rest []
      else splitSlash rest (c :: acc)

/-- Name component of a POSIX path, as computed by Python's
`Path(s).name`: split on `/`, drop empty and `.` components, take the
last component (or `""` when none remain). -/
def pathName (s : String) : String :=
  ((splitSlash s.data []).filter (fun p => !(p == "") && !(p == "."))).getLast?.getD ""

/-- Package descriptor, mirroring `PackageInfo` in
`src/downloaders/packages.py`.  `urlPath` is the path component of the
download URL (what `urlparse(str(package.url)).path` yields). -/
structure PackageInfo where
  name : String
  urlPath : String
  sha256 : Option String
  sizeBytes : Option Nat
  deriving DecidableEq, Repr

/-- Integrity check of `PackageDownloader._verify_file`: `false` when
the file is absent, when a declared size mismatches, or when a declared
SHA-256 mismatches; `true` otherwise.  The hash is only computed after
the size check passes, which `verifyFileHashes` accounts for. -/
def verifyFile (sha : Content → String) (fs : FS) (filePath : String)
    (expectedSha256 : Option String) (expectedSize : Option Nat) : Bool :=
  match fs filePath with
  | none => false
  | some d =>
      (match expectedSize with
       | some n => d.content.length == n
       | none => true)
      &&
      (match expectedSha256 with
       | some h => sha d.content == h
       | none => true)

/-- Number of SHA-256 computations `_verify_file` performs: one exactly
when the file exists, any declared size matches, and a digest is
declared; zero otherwise (the code returns early in every other case). -/
def verifyFileHashes (fs : FS) (filePath : String)
    (expectedSha256 : Option String) (expectedSize : Option Nat) : Nat :=
  match fs filePath with
  | none => 0
  | some d =>
      match expectedSize with
      | some n =>
          if d.content.length == n then (if expectedSha256.isSome then 1 else 0) else 0
      | none => if expectedSha256.isSome then 1 else 0

/-- Result of one downloader call: the returned path or the raised
exception, the final filesystem, and instrumentation counting HTTP GET
requests issued and SHA-256 digests computed during the call. -/
structure DownloadOutcome where
  result : Except PyExc String
  fs : FS
  fetchCount : Nat
  hashCount : Nat

/-- Cache path computed at the top of `download_package`:
`Path(urlparse(url).path).name or package.name` under the cache dir. -/
def cachePathOf (cacheDir : String) (pkg : PackageInfo) : String :=
  let filename := pathName pkg.urlPath
  cacheDir ++ "/" ++ (if filename = "" then pkg.name else filename)

/-- Fresh-download phase of `download_package` (the `try` block):
one GET via `_download_file` (a single `session.get`, no retry), then
`_verify_file`; on verification failure the file is unlinked and
`ValueError` raised; the `except` handler unlinks whatever remains at
the cache path before re-raising any exception. -/
def downloadFresh (sha : Content → String) (net : Nat → NetOutcome)
    (cachePath : String) (pkg : PackageInfo) (fs : FS) (hashes : Nat) :
    DownloadOutcome :=
  match net 0 with
  | .ok c =>
      let fs1 := fsWrite fs cachePath ⟨c, false⟩
      if verifyFile sha fs1 cachePath pkg.sha256 pkg.sizeBytes then
        { result := .ok cachePath, fs := fs1, fetchCount := 1,
          hashCount := hashes + verifyFileHashes fs1 cachePath pkg.sha256 pkg.sizeBytes }
      else
        { result := .error (.valueError ("Downloaded file verification failed: " ++ cachePath)),
          fs := fsErase fs1 cachePath, fetchCount := 1,
          hashCount := hashes + verifyFileHashes fs1 cachePath pkg.sha256 pkg.sizeBytes }
  | .err leftover msg =>
      let fs1 := match leftover with
        | some c => fsWrite fs cachePath ⟨c, false⟩
        | none => fs
      { result := .error (.requestException msg), fs := fsErase fs1 cachePath,
        fetchCount := 1, hashCount := hashes }

/-- Model of `PackageDownloader.download_package`: cache-hit check
(existence, then `_verify_file`), unlink of an invalid cached file, and
the fresh-download phase otherwise. -/
def downloadPackage (sha : Content → String) (net : Nat → NetOutcome)
    (cacheDir : String) (pkg : PackageInfo) (forceDownload : Bool) (fs : FS) :
    DownloadOutcome :=
  let cachePath := cachePathOf cacheDir pkg
  if !forceDownload && (fs cachePath).isSome then
    if verifyFile sha fs cachePath pkg.sha256 pkg.sizeBytes then
      { result := .ok cachePath, fs := fs, fetchCount := 0,
        hashCount := verifyFileHashes fs cachePath pkg.sha256 pkg.sizeBytes }
    else
      downloadFresh sha net cachePath pkg (fsErase fs cachePath)
        (verifyFileHashes fs cachePath pkg.sha256 pkg.sizeBytes)
  else
    downloadFresh sha net cachePath pkg fs 0

/-- Result of one `download_with_retry` call: success or the raised
exception, the final filesystem, and the backoff sleeps performed (in
seconds, in order). -/
structure RetryOutcome where
  result : Except PyExc Unit
  fs : FS
  sleeps : List Nat

/-- Message of the `DownloadError` raised by `download_with_retry` after
exhausting its attempts, wrapping the last underlying error `msg`. -/
def retryFailureMsg (url : String) (maxRetries : Nat) (msg : String) : String :=
  "Failed to download " ++ url ++ " after " ++ toString (maxRetries + 1) ++
    " attempts: " ++ msg

/-- Loop body of `download_with_retry` (`for attempt in
range(max_retries + 1)`): on success write the body to `dest`; on a
network/IO error delete any partial destination file, and either sleep
`2 ^ attempt` seconds and retry (when attempts remain) or raise
`DownloadError` wrapping the last error.  `remaining` counts the
attempts left after the current one. -/
def downloadWithRetryGo (net : Nat → NetOutcome) (url dest : String)
    (maxRetries : Nat) :
    Nat → Nat → FS → List Nat → RetryOutcome
  | attempt, remaining, fs, sleeps =>
    match net attempt with
    | .ok c => { result := .ok (), fs := fsWrite fs dest ⟨c, false⟩, sleeps := sleeps }
    | .err leftover msg =>
        let fs1 := match leftover with
          | some c => fsWrite fs dest ⟨c, false⟩
          | none => fs
        let fs2 := fsErase fs1 dest
        match remaining with
        | r + 1 =>
            downloadWithRetryGo net url dest maxRetries (attempt + 1) r fs2
              (sleeps ++ [2 ^ attempt])
        | 0 =>
            { result := .error (.downloadError (retryFailureMsg url maxRetries msg)),
              fs := fs2, sleeps := sleeps }

/-- Model of `download_with_retry` in `src/downloaders/utils.py`. -/
def downloadWithRetry (net : Nat → NetOutcome) (url dest : String)
    (maxRetries : Nat) (fs : FS) : RetryOutcome :=
  downloadWithRetryGo net url dest maxRetries 0 maxRetries fs []

/-- Script descriptor, mirroring `ScriptInfo` in
`src/downloaders/scripts.py` (fields the downloader inspects). -/
structure ScriptInfo where
  name : String
  urlPath : String
  sha256 : Option String
  executable : Bool
  deriving DecidableEq, Repr

/-- Cache path computed at the top of `download_script`:
`Path(urlparse(url).path).name or f"{script.name}.sh"` under the cache
directory. -/
def scriptCachePathOf (cacheDir : String) (s : ScriptInfo) : String :=
  let filename := pathName s.urlPath
  cacheDir ++ "/" ++ (if filename = "" then s.name ++ ".sh" else filename)

/-- Tail of the fresh-download phase of `download_script` after the
optional hash check: set the executable bit when requested, then run
content validation (when enabled at construction time and not overridden
off); an invalid script is unlinked and `ValueError` raised. -/
def scriptFinish (isValidContent : Content → Bool) (shouldValidate : Bool)
    (cachePath : String) (s : ScriptInfo) (fs1 : FS) (hashes : Nat)
    (c : Content) : DownloadOutcome :=
  let fs2 := if s.executable then fsSetExec fs1 cachePath else fs1
  if shouldValidate && !(isValidContent c) then
    { result := .error (.valueError ("Script validation failed: " ++ cachePath)),
      fs := fsErase fs2 cachePath, fetchCount := 1, hashCount := hashes }
  else
    { result := .ok cachePath, fs := fs2, fetchCount := 1, hashCount := hashes }

/-- Fresh-download phase of `download_script` (the `try` block): one GET
via `_download_script`, hash verification when a digest is declared,
then `scriptFinish`; the `except` handler unlinks whatever remains at
the cache path before re-raising. -/
def scriptFresh (sha : Content → String) (net : Nat → NetOutcome)
    (isValidContent : Content → Bool) (shouldValidate : Bool)
    (cachePath : String) (s : ScriptInfo) (fs : FS) (hashes : Nat) :
    DownloadOutcome :=
  match net 0 with
  | .ok c =>
      let fs1 := fsWrite fs cachePath ⟨c, false⟩
      match s.sha256 with
      | some h =>
          if sha c == h then
            scriptFinish isValidContent shouldValidate cachePath s fs1 (hashes + 1) c
          else
            { result := .error (.valueError ("Script hash verification failed: " ++ cachePath)),
              fs := fsErase fs1 cachePath, fetchCount := 1, hashCount := hashes + 1 }
      | none => scriptFinish isValidContent shouldValidate cachePath s fs1 hashes c
  | .err leftover msg =>
      let fs1 := match leftover with
        | some c => fsWrite fs cachePath ⟨c, false⟩
        | none => fs
      { result := .error (.requestException msg), fs := fsErase fs1 cachePath,
        fetchCount := 1, hashCount := hashes }

/-- Model of `ScriptDownloader.download_script`.  `validateScripts` is
the downloader's construction-time flag (which also decides whether a
validator exists at all), `validateOverride` the per-call `validate`
argument; content validation runs only when the effective flag and the
validator are both present, matching `should_validate and
self.validator`. -/
def downloadScript (sha : Content → String) (net : Nat → NetOutcome)
    (isValidContent : Content → Bool) (validateScripts : Bool)
    (cacheDir : String) (s : ScriptInfo) (forceDownload : Bool)
    (validateOverride : Option Bool) (fs : FS) : DownloadOutcome :=
  let cachePath := scriptCachePathOf cacheDir s
  let shouldValidate := (validateOverride.getD validateScripts) && validateScripts
  if !forceDownload && (fs cachePath).isSome then
    match s.sha256, fs cachePath with
    | some h, some d =>
        if sha d.content == h then
          { result := .ok cachePath,
            fs := if s.executable then fsSetExec fs cachePath else fs,
            fetchCount := 0, hashCount := 1 }
        else
          scriptFresh sha net isValidContent shouldValidate cachePath s
            (fsErase fs cachePath) 1
    | none, some _ =>
        { result := .ok cachePath, fs := fs, fetchCount := 0, hashCount := 0 }
    | _, none =>
        -- unreachable: the guard established `(fs cachePath).isSome`
        scriptFresh sha net isValidContent shouldValidate cachePath s fs 0
  else
    scriptFresh sha net isValidContent shouldValidate cachePath s fs 0

/-! ### Local asset scanner (`src/utils/asset_scanner.py`) -/

/-- Suffix of a file name, as computed by Python's `Path(name).suffix`
(CPython: the part from the last dot, unless that dot is the first or
the last character). -/
def pathSuffix (name : String) : String :=
  let cs := name.toList
  match ((List.range cs.length).filter (fun i => cs.get? i == some '.')).getLast? with
  | some i => if 0 < i ∧ i < cs.length - 1 then String.mk (cs.drop i) else ""
  | none => ""

/-- One regular file inside a scanned directory: its name, byte content
and whether any executable bit (`st_mode & 0o111`) is set. -/
structure SrcFile where
  name : String
  content : Content
  exec : Bool
  deriving DecidableEq, Repr

/-- Scanner output record, mirroring the dataclass `AssetInfo`. -/
structure AssetInfo where
  path : String
  name : String
  size : Nat
  md5 : String
  sha256 : String
  type : String
  executable : Bool
  deriving DecidableEq, Repr

/-- Asset tree rooted at the scanner's `base_dir` (whose directory name
is `baseName`), holding the regular files of its three kind-specific
subdirectories `packages/`, `scripts/` and `iso/`. -/
structure AssetTree where
  baseName : String
  packages : List SrcFile
  scripts : List SrcFile
  isoFiles : List SrcFile
  deriving DecidableEq, Repr

/-- Model of `AssetScanner._scan_directory`: keep regular files whose
suffix is among the allowed extensions, and record for each its
relative path (relative to `base_dir.parent`, hence starting with the
base directory's name), size, both digests, type and executable bit. -/
def scanDirectory (md5 sha : Content → String) (baseName subdir ftype : String)
    (exts : List String) (files : List SrcFile) : List AssetInfo :=
  (files.filter (fun f => exts.isEmpty || exts.contains (pathSuffix f.name))).map
    (fun f =>
      { path := baseName ++ "/" ++ subdir ++ "/" ++ f.name
        name := f.name
        size := f.content.length
        md5 := md5 f.content
        sha256 := sha f.content
        type := ftype
        executable := f.exec })

/-- Model of `AssetScanner.scan_packages`. -/
def scanPackages (md5 sha : Content → String) (t : AssetTree) : List AssetInfo :=
  scanDirectory md5 sha t.baseName "packages" "deb" [".deb"] t.packages

/-- Model of `AssetScanner.scan_scripts`. -/
def scanScripts (md5 sha : Content → String) (t : AssetTree) : List AssetInfo :=
  scanDirectory md5 sha t.baseName "scripts" "script" [".sh", ".py", ".pl", ".rb"] t.scripts

/-- Model of `AssetScanner.scan_iso_files`. -/
def scanIsoFiles (md5 sha : Content → String) (t : AssetTree) : List AssetInfo :=
  scanDirectory md5 sha t.baseName "iso" "iso" [".iso"] t.isoFiles

/-- Persisted manifest, mirroring the JSON structure written by
`save_asset_manifest` (the fields `verify_assets` reads, plus the
summary it writes). -/
structure Manifest where
  totalPackages : Nat
  totalScripts : Nat
  totalIsoFiles : Nat
  totalSizeBytes : Nat
  packages : List AssetInfo
  scripts : List AssetInfo
  isoFiles : List AssetInfo
  deriving DecidableEq, Repr

/-- Model of `AssetScanner.save_asset_manifest`: scan all three
subdirectories and snapshot the results (with summary counts). -/
def saveAssetManifest (md5 sha : Content → String) (t : AssetTree) : Manifest :=
  let pkgs := scanPackages md5 sha t
  let scrs := scanScripts md5 sha t
  let isos := scanIsoFiles md5 sha t
  { totalPackages := pkgs.length
    totalScripts := scrs.length
    totalIsoFiles := isos.length
    totalSizeBytes := (pkgs.map (·.size)).sum + (scrs.map (·.size)).sum +
      (isos.map (·.size)).sum
    packages := pkgs
    scripts := scrs
    isoFiles := isos }

/-- One verification loop of `verify_assets`: for each manifest entry,
report a missing-file error when no current entry has its path, and a
checksum-mismatch error when the current SHA-256 differs.  (The code
builds path-keyed dicts first; with duplicate-free paths — true of a
real directory listing — that is equivalent to this first-match scan.) -/
def verifySection (missingLabel mismatchLabel : String) :
    List AssetInfo → List AssetInfo → List String
  | [], _ => []
  | m :: rest, current =>
      (match current.find? (fun c => c.path == m.path) with
       | none => [missingLabel ++ m.path]
       | some c => if c.sha256 ≠ m.sha256 then [mismatchLabel ++ m.path] else []) ++
      verifySection missingLabel mismatchLabel rest current

/-- Model of `AssetScanner.verify_assets`: re-scan the tree and compare
each manifest section against the corresponding current scan, in the
order packages, scripts, ISO files. -/
def verifyAssets (md5 sha : Content → String) (m : Manifest) (t : AssetTree) :
    List String :=
  verifySection "Package missing: " "Package checksum mismatch: "
      m.packages (scanPackages md5 sha t) ++
  verifySection "Script missing: " "Script checksum mismatch: "
      m.scripts (scanScripts md5 sha t) ++
  verifySection "ISO file missing: " "ISO file checksum mismatch: "
      m.isoFiles (scanIsoFiles md5 sha t)

/-- Removal of the single file named `n` from the `packages/`
subdirectory of the tree (the filesystem deletion in the round-trip
property). -/
def deletePackageFile (t : AssetTree) (n : String) : AssetTree :=
  { t with packages := t.packages.filter (fun f => !(f.name == n)) }

/-- Removal of the single file named `n` from the `scripts/`
subdirectory of the tree. -/
def deleteScriptFile (t : AssetTree) (n : String) : AssetTree :=
  { t with scripts := t.scripts.filter (fun f => !(f.name == n)) }

/-- Removal of the single file named `n` from the `iso/` subdirectory
of the tree. -/
def deleteIsoFile (t : AssetTree) (n : String) : AssetTree :=
  { t with isoFiles := t.isoFiles.filter (fun f => !(f.name == n)) }

/-! ### Derived checks and concrete instances used in the statements -/

/-- Content-level form of `_verify_file` applied to a file whose bytes
are `c`: the declared size check and the declared digest check. -/
def contentOk (sha : Content → String) (c : Content)
    (expectedSha256 : Option String) (expectedSize : Option Nat) : Bool :=
  (match expectedSize with
   | some n => c.length == n
   | none => true)
  &&
  (match expectedSha256 with
   | some h => sha c == h
   | none => true)

/-- Concrete stand-in digest for witnesses: distinct contents give
distinct strings. -/
def shaW : Content → String := fun c => "sha:" ++ toString c

/-- Concrete stand-in MD5 digest for witnesses. -/
def md5W : Content → String := fun c => "md5:" ++ toString c

/-- Empty filesystem. -/
def fsEmpty : FS := fun _ => none

/-- Network oracle on which every attempt succeeds with body
`[1, 2, 3]`. -/
def netSuccess : Nat → NetOutcome := fun _ => .ok [1, 2, 3]

/-- Network oracle on which attempt 0 fails (no partial file) and every
later attempt succeeds with body `[7]`. -/
def netFirstFails : Nat → NetOutcome :=
  fun n => if n = 0 then .err none "connection reset" else .ok [7]

/-- Network oracle on which every attempt fails, leaving a partial
file. -/
def netAllFail : Nat → NetOutcome :=
  fun n => .err (some [9]) ("timeout " ++ toString n)

/-- Package descriptor declaring no expected digest and no expected
size. -/
def pkgNoDigest : PackageInfo :=
  { name := "tool", urlPath := "/pool/tool.deb", sha256 := none, sizeBytes := none }

/-- Package descriptor declaring the digest and size of `[1, 2, 3]`
under `shaW`. -/
def pkgDeclared : PackageInfo :=
  { name := "tool", urlPath := "/pool/tool.deb", sha256 := some (shaW [1, 2, 3]),
    sizeBytes := some 3 }

/-- Package descriptor declaring a digest that does not match the body
`[1, 2, 3]` served by `netSuccess`. -/
def pkgWrongDigest : PackageInfo :=
  { name := "tool", urlPath := "/pool/tool.deb", sha256 := some "0000",
    sizeBytes := some 3 }

/-- Script descriptor with no declared digest that requests the
executable bit. -/
def scrNoDigest : ScriptInfo :=
  { name := "setup", urlPath := "/s/setup.sh", sha256 := none, executable := true }

/-- Script descriptor declaring the digest of `[42]` under `shaW`,
requesting the executable bit. -/
def scrDeclared : ScriptInfo :=
  { name := "setup", urlPath := "/s/setup.sh", sha256 := some (shaW [42]),
    executable := true }

/-- Filesystem holding a non-executable cached script at
`cache/setup.sh` with content `[42]`. -/
def fsCachedScript : FS :=
  fun p => if p = "cache/setup.sh" then some ⟨[42], false⟩ else none

/-- Filesystem holding a cached package file at `cache/tool.deb` with
content `[1, 2, 3]`. -/
def fsCachedPkg : FS :=
  fun p => if p = "cache/tool.deb" then some ⟨[1, 2, 3], false⟩ else none

/-- Concrete asset tree for witnesses: two packages, one script, one
ISO image, one file that no scan picks up. -/
def treeW : AssetTree where
  baseName := "local_assets"
  packages := [{ name := "a.deb", content := [1], exec := false },
               { name := "b.deb", content := [2, 2], exec := false },
               { name := "notes.txt", content := [0], exec := false }]
  scripts := [{ name := "s.sh", content := [5], exec := true }]
  isoFiles := [{ name := "base.iso", content := [9, 9], exec := false }]

/-- Scanner record of `treeW`'s package `a.deb` (what the manifest
stores for it). -/
def pkgAssetW : AssetInfo :=
  { path := "local_assets/packages/a.deb", name := "a.deb", size := 1,
    md5 := md5W [1], sha256 := shaW [1], type := "deb", executable := false }

/-! ### Basic filesystem lemmas -/

theorem fsWrite_self (fs : FS) (p : String) (d : FileData) : fsWrite fs p d p = some d := by
  simp [fsWrite]

theorem fsErase_self (fs : FS) (p : String) : fsErase fs p p = none := by
  simp [fsErase]

theorem verifyFile_fsWrite (sha : Content → String) (fs : FS) (p : String)
    (d : FileData) (es : Option String) (en : Option Nat) :
    verifyFile sha (fsWrite fs p d) p es en = contentOk sha d.content es en := by
  simp [verifyFile, fsWrite, contentOk]

/-! ### C7: verifier contract -/

/-- C7.  The verifier `_verify_file` is total (a Boolean function, it
never raises): it returns `true` exactly when the file exists, any
declared size matches the file's actual size, and any declared SHA-256
matches the file's actual digest; in particular it returns `false` for
an absent file, and `true` for an existing file when neither check is
declared. -/
theorem verify_file_contract (sha : Content → String) (fs : FS) (p : String)
    (expSha : Option String) (expSize : Option Nat) :
    (verifyFile sha fs p expSha expSize = true ↔
      ∃ d, fs p = some d ∧ (∀ n, expSize = some n → d.content.length = n) ∧
        (∀ h, expSha = some h → sha d.content = h)) ∧
    (fs p = none → verifyFile sha fs p expSha expSize = false) ∧
    (∀ d, fs p = some d → verifyFile sha fs p none none = true) := by
  refine ⟨?_, ?_, ?_⟩
  · cases hfs : fs p with
    | none => simp [verifyFile, hfs]
    | some d =>
      cases expSize <;> cases expSha <;> simp [verifyFile, hfs]
  · intro hfs; simp [verifyFile, hfs]
  · intro d hfs; simp [verifyFile, hfs]

/-- Closed instance of `verify_file_contract`: an existing file with no
declared checks verifies. -/
theorem verify_file_contract_witness :
    verifyFile shaW fsCachedPkg "cache/tool.deb" none none = true :=
  (verify_file_contract shaW fsCachedPkg "cache/tool.deb" none none).2.2
    ⟨[1, 2, 3], false⟩ rfl

/-! ### Lemmas about the fresh-download phase of `download_package` -/

theorem verifyFileHashes_sha_none (fs : FS) (p : String) (en : Option Nat) :
    verifyFileHashes fs p none en = 0 := by
  cases hfs : fs p <;> cases en <;> simp [verifyFileHashes, hfs]

theorem downloadFresh_ok_pass (sha : Content → String) (net : Nat → NetOutcome)
    (cp : String) (pkg : PackageInfo) (fs : FS) (hashes : Nat) (c : Content)
    (hnet : net 0 = .ok c) (hgood : contentOk sha c pkg.sha256 pkg.sizeBytes = true) :
    downloadFresh sha net cp pkg fs hashes =
      { result := .ok cp, fs := fsWrite fs cp ⟨c, false⟩, fetchCount := 1,
        hashCount := hashes +
          verifyFileHashes (fsWrite fs cp ⟨c, false⟩) cp pkg.sha256 pkg.sizeBytes } := by
  simp [downloadFresh, hnet, verifyFile_fsWrite, hgood]

theorem downloadFresh_ok_fail (sha : Content → String) (net : Nat → NetOutcome)
    (cp : String) (pkg : PackageInfo) (fs : FS) (hashes : Nat) (c : Content)
    (hnet : net 0 = .ok c) (hbad : contentOk sha c pkg.sha256 pkg.sizeBytes = false) :
    downloadFresh sha net cp pkg fs hashes =
      { result := .error (.valueError ("Downloaded file verification failed: " ++ cp)),
        fs := fsErase (fsWrite fs cp ⟨c, false⟩) cp, fetchCount := 1,
        hashCount := hashes +
          verifyFileHashes (fsWrite fs cp ⟨c, false⟩) cp pkg.sha256 pkg.sizeBytes } := by
  simp [downloadFresh, hnet, verifyFile_fsWrite, hbad]

theorem downloadFresh_err (sha : Content → String) (net : Nat → NetOutcome)
    (cp : String) (pkg : PackageInfo) (fs : FS) (hashes : Nat)
    (lo : Option Content) (m : String) (hnet : net 0 = .err lo m) :
    (downloadFresh sha net cp pkg fs hashes).result = .error (.requestException m) ∧
    (downloadFresh sha net cp pkg fs hashes).fs cp = none ∧
    (downloadFresh sha net cp pkg fs hashes).fetchCount = 1 ∧
    (downloadFresh sha net cp pkg fs hashes).hashCount = hashes := by
  cases lo <;> simp [downloadFresh, hnet, fsErase]

theorem downloadFresh_error_fs (sha : Content → String) (net : Nat → NetOutcome)
    (cp : String) (pkg : PackageInfo) (fs : FS) (hashes : Nat) (e : PyExc)
    (h : (downloadFresh sha net cp pkg fs hashes).result = .error e) :
    (downloadFresh sha net cp pkg fs hashes).fs cp = none := by
  cases hnet : net 0 with
  | ok c =>
    cases hv : verifyFile sha (fsWrite fs cp ⟨c, false⟩) cp pkg.sha256 pkg.sizeBytes with
    | false => simp [downloadFresh, hnet, hv, fsErase]
    | true => simp [downloadFresh, hnet, hv] at h
  | err lo m => exact (downloadFresh_err sha net cp pkg fs hashes lo m hnet).2.1

theorem downloadFresh_ok_post (sha : Content → String) (net : Nat → NetOutcome)
    (cp : String) (pkg : PackageInfo) (fs : FS) (hashes : Nat) (p : String)
    (h : (downloadFresh sha net cp pkg fs hashes).result = .ok p) :
    p = cp ∧ ((downloadFresh sha net cp pkg fs hashes).fs cp).isSome = true ∧
      verifyFile sha (downloadFresh sha net cp pkg fs hashes).fs cp
        pkg.sha256 pkg.sizeBytes = true := by
  cases hnet : net 0 with
  | ok c =>
    cases hv : verifyFile sha (fsWrite fs cp ⟨c, false⟩) cp pkg.sha256 pkg.sizeBytes with
    | false => simp [downloadFresh, hnet, hv] at h
    | true =>
      have hgood : contentOk sha c pkg.sha256 pkg.sizeBytes = true := by
        rw [← verifyFile_fsWrite sha fs cp ⟨c, false⟩]; exact hv
      have heq := downloadFresh_ok_pass sha net cp pkg fs hashes c hnet hgood
      rw [heq] at h ⊢
      have hp : cp = p := by simpa using h
      subst hp
      exact ⟨rfl, by simp [fsWrite], hv⟩
  | err lo m =>
    rw [(downloadFresh_err sha net cp pkg fs hashes lo m hnet).1] at h
    simp at h

theorem downloadFresh_fetchCount (sha : Content → String) (net : Nat → NetOutcome)
    (cp : String) (pkg : PackageInfo) (fs : FS) (hashes : Nat) :
    (downloadFresh sha net cp pkg fs hashes).fetchCount = 1 := by
  cases hnet : net 0 with
  | ok c =>
    cases hv : verifyFile sha (fsWrite fs cp ⟨c, false⟩) cp pkg.sha256 pkg.sizeBytes <;>
      simp [downloadFresh, hnet, hv]
  | err lo m => exact (downloadFresh_err sha net cp pkg fs hashes lo m hnet).2.2.1

theorem downloadFresh_error_shape (sha : Content → String) (net : Nat → NetOutcome)
    (cp : String) (pkg : PackageInfo) (fs : FS) (hashes : Nat) (e : PyExc)
    (h : (downloadFresh sha net cp pkg fs hashes).result = .error e) :
    (∃ m, e = .requestException m) ∨
      e = .valueError ("Downloaded file verification failed: " ++ cp) := by
  cases hnet : net 0 with
  | ok c =>
    cases hv : verifyFile sha (fsWrite fs cp ⟨c, false⟩) cp pkg.sha256 pkg.sizeBytes with
    | false =>
      right
      simp [downloadFresh, hnet, hv] at h
      exact h.symm
    | true => simp [downloadFresh, hnet, hv] at h
  | err lo m =>
    left
    have := (downloadFresh_err sha net cp pkg fs hashes lo m hnet).1
    rw [this] at h
    exact ⟨m, by injection h with h1; exact h1.symm⟩

theorem downloadFresh_hash_none (sha : Content → String) (net : Nat → NetOutcome)
    (cp : String) (pkg : PackageInfo) (fs : FS) (hashes : Nat)
    (hsha : pkg.sha256 = none) :
    (downloadFresh sha net cp pkg fs hashes).hashCount = hashes := by
  cases hnet : net 0 with
  | ok c =>
    simp only [downloadFresh, hnet]
    split <;> simp [hsha, verifyFileHashes_sha_none]
  | err lo m => exact (downloadFresh_err sha net cp pkg fs hashes lo m hnet).2.2.2

/-! ### Lemmas about `download_package` -/

theorem downloadPackage_cache_hit (sha : Content → String) (net : Nat → NetOutcome)
    (cacheDir : String) (pkg : PackageInfo) (fs : FS)
    (hsome : (fs (cachePathOf cacheDir pkg)).isSome = true)
    (hvalid : verifyFile sha fs (cachePathOf cacheDir pkg) pkg.sha256 pkg.sizeBytes = true) :
    downloadPackage sha net cacheDir pkg false fs =
      { result := .ok (cachePathOf cacheDir pkg), fs := fs, fetchCount := 0,
        hashCount := verifyFileHashes fs (cachePathOf cacheDir pkg)
          pkg.sha256 pkg.sizeBytes } := by
  simp [downloadPackage, hsome, hvalid]

theorem downloadPackage_ok_post (sha : Content → String) (net : Nat → NetOutcome)
    (cacheDir : String) (pkg : PackageInfo) (b : Bool) (fs : FS) (p : String)
    (h : (downloadPackage sha net cacheDir pkg b fs).result = .ok p) :
    p = cachePathOf cacheDir pkg ∧
    ((downloadPackage sha net cacheDir pkg b fs).fs p).isSome = true ∧
    verifyFile sha (downloadPackage sha net cacheDir pkg b fs).fs p
      pkg.sha256 pkg.sizeBytes = true := by
  cases b with
  | true =>
    simp only [downloadPackage, Bool.not_true, Bool.false_and, Bool.false_eq_true,
      if_false] at h ⊢
    obtain ⟨hp, h2, h3⟩ := downloadFresh_ok_post _ _ _ _ _ _ _ h
    subst hp
    exact ⟨rfl, h2, h3⟩
  | false =>
    cases hs : (fs (cachePathOf cacheDir pkg)).isSome with
    | false =>
      simp only [downloadPackage, Bool.not_false, Bool.true_and, hs, Bool.false_eq_true,
        if_false] at h ⊢
      obtain ⟨hp, h2, h3⟩ := downloadFresh_ok_post _ _ _ _ _ _ _ h
      subst hp
      exact ⟨rfl, h2, h3⟩
    | true =>
      cases hv : verifyFile sha fs (cachePathOf cacheDir pkg) pkg.sha256 pkg.sizeBytes with
      | true =>
        have heq := downloadPackage_cache_hit sha net cacheDir pkg fs hs hv
        rw [heq] at h ⊢
        have hp : cachePathOf cacheDir pkg = p := by simpa using h
        subst hp
        exact ⟨rfl, by simpa using hs, hv⟩
      | false =>
        simp only [downloadPackage, Bool.not_false, Bool.true_and, hs, if_true, hv,
          Bool.false_eq_true, if_false] at h ⊢
        obtain ⟨hp, h2, h3⟩ := downloadFresh_ok_post _ _ _ _ _ _ _ h
        subst hp
        exact ⟨rfl, h2, h3⟩

/-! ### Lemmas about `download_with_retry` -/

theorem downloadWithRetryGo_ok (net : Nat → NetOutcome) (url dest : String)
    (maxRetries attempt remaining : Nat) (fs : FS) (sleeps : List Nat) (c : Content)
    (hnet : net attempt = .ok c) :
    downloadWithRetryGo net url dest maxRetries attempt remaining fs sleeps =
      { result := .ok (), fs := fsWrite fs dest ⟨c, false⟩, sleeps := sleeps } := by
  simp [downloadWithRetryGo, hnet]

theorem downloadWithRetryGo_err_last (net : Nat → NetOutcome) (url dest : String)
    (maxRetries attempt : Nat) (fs : FS) (sleeps : List Nat)
    (lo : Option Content) (m : String) (hnet : net attempt = .err lo m) :
    downloadWithRetryGo net url dest maxRetries attempt 0 fs sleeps =
      { result := .error (.downloadError (retryFailureMsg url maxRetries m)),
        fs := fsErase (match lo with
          | some c => fsWrite fs dest ⟨c, false⟩
          | none => fs) dest,
        sleeps := sleeps } := by
  cases lo <;> simp [downloadWithRetryGo, hnet]

theorem downloadWithRetryGo_err_step (net : Nat → NetOutcome) (url dest : String)
    (maxRetries attempt r : Nat) (fs : FS) (sleeps : List Nat)
    (lo : Option Content) (m : String) (hnet : net attempt = .err lo m) :
    downloadWithRetryGo net url dest maxRetries attempt (r + 1) fs sleeps =
      downloadWithRetryGo net url dest maxRetries (attempt + 1) r
        (fsErase (match lo with
          | some c => fsWrite fs dest ⟨c, false⟩
          | none => fs) dest)
        (sleeps ++ [2 ^ attempt]) := by
  conv_lhs => rw [downloadWithRetryGo]
  cases lo <;> simp [hnet]

theorem downloadWithRetryGo_allFail (net : Nat → NetOutcome) (url dest : String)
    (maxRetries : Nat) :
    ∀ (remaining attempt : Nat) (fs : FS) (sleeps : List Nat),
      (∀ k, k ≤ remaining → (net (attempt + k)).isErr = true) →
      (downloadWithRetryGo net url dest maxRetries attempt remaining fs sleeps).result =
        .error (.downloadError (retryFailureMsg url maxRetries
          ((net (attempt + remaining)).errMsg))) ∧
      (downloadWithRetryGo net url dest maxRetries attempt remaining fs sleeps).sleeps =
        sleeps ++ (List.range remaining).map (fun k => 2 ^ (attempt + k)) ∧
      (downloadWithRetryGo net url dest maxRetries attempt remaining fs sleeps).fs dest =
        none := by
  intro remaining
  induction remaining with
  | zero =>
    intro attempt fs sleeps hfail
    have h0 := hfail 0 (le_refl 0)
    rw [Nat.add_zero] at h0
    cases hnet : net attempt with
    | ok c => rw [hnet] at h0; simp [NetOutcome.isErr] at h0
    | err lo m =>
      rw [downloadWithRetryGo_err_last net url dest maxRetries attempt fs sleeps lo m hnet]
      refine ⟨by simp [Nat.add_zero, hnet, NetOutcome.errMsg], by simp, ?_⟩
      exact fsErase_self _ _
  | succ r ih =>
    intro attempt fs sleeps hfail
    have h0 := hfail 0 (Nat.zero_le _)
    rw [Nat.add_zero] at h0
    cases hnet : net attempt with
    | ok c => rw [hnet] at h0; simp [NetOutcome.isErr] at h0
    | err lo m =>
      rw [downloadWithRetryGo_err_step net url dest maxRetries attempt r fs sleeps lo m hnet]
      have hfail' : ∀ k, k ≤ r → (net (attempt + 1 + k)).isErr = true := by
        intro k hk
        have := hfail (k + 1) (Nat.succ_le_succ hk)
        rwa [show attempt + (k + 1) = attempt + 1 + k by omega] at this
      obtain ⟨h1, h2, h3⟩ := ih (attempt + 1) _ (sleeps ++ [2 ^ attempt]) hfail'
      refine ⟨?_, ?_, h3⟩
      · rwa [show attempt + 1 + r = attempt + (r + 1) by omega] at h1
      · have hfun : (fun k => 2 ^ (attempt + 1 + k)) =
            ((fun k => 2 ^ (attempt + k)) ∘ Nat.succ) := by
          funext k
          simp only [Function.comp_apply]
          congr 1
          omega
        rw [h2, List.append_assoc, List.range_succ_eq_map, List.map_cons,
          List.map_map, hfun]
        simp

theorem downloadWithRetryGo_okAt (net : Nat → NetOutcome) (url dest : String)
    (maxRetries : Nat) :
    ∀ (k remaining attempt : Nat) (fs : FS) (sleeps : List Nat) (c : Content),
      k ≤ remaining →
      (∀ i, i < k → (net (attempt + i)).isErr = true) →
      net (attempt + k) = .ok c →
      (downloadWithRetryGo net url dest maxRetries attempt remaining fs sleeps).result =
        .ok () ∧
      (downloadWithRetryGo net url dest maxRetries attempt remaining fs sleeps).sleeps =
        sleeps ++ (List.range k).map (fun i => 2 ^ (attempt + i)) ∧
      (downloadWithRetryGo net url dest maxRetries attempt remaining fs sleeps).fs dest =
        some ⟨c, false⟩ := by
  intro k
  induction k with
  | zero =>
    intro remaining attempt fs sleeps c _ _ hok
    rw [Nat.add_zero] at hok
    rw [downloadWithRetryGo_ok net url dest maxRetries attempt remaining fs sleeps c hok]
    exact ⟨rfl, by simp, fsWrite_self _ _ _⟩
  | succ kk ih =>
    intro remaining attempt fs sleeps c hk hfail hok
    cases remaining with
    | zero => exact absurd hk (by omega)
    | succ r =>
      have h0 := hfail 0 (Nat.succ_pos kk)
      rw [Nat.add_zero] at h0
      cases hnet : net attempt with
      | ok c0 => rw [hnet] at h0; simp [NetOutcome.isErr] at h0
      | err lo m =>
        rw [downloadWithRetryGo_err_step net url dest maxRetries attempt r fs sleeps lo m hnet]
        have hfail' : ∀ i, i < kk → (net (attempt + 1 + i)).isErr = true := by
          intro i hi
          have := hfail (i + 1) (by omega)
          rwa [show attempt + (i + 1) = attempt + 1 + i by omega] at this
        have hok' : net (attempt + 1 + kk) = .ok c := by
          rwa [show attempt + 1 + kk = attempt + (kk + 1) by omega]
        obtain ⟨h1, h2, h3⟩ := ih r (attempt + 1) _ (sleeps ++ [2 ^ attempt]) c
          (by omega) hfail' hok'
        refine ⟨h1, ?_, h3⟩
        have hfun : (fun i => 2 ^ (attempt + 1 + i)) =
            ((fun i => 2 ^ (attempt + i)) ∘ Nat.succ) := by
          funext i
          simp only [Function.comp_apply]
          congr 1
          omega
        rw [h2, List.append_assoc, List.range_succ_eq_map, List.map_cons,
          List.map_map, hfun]
        simp

/-! ### C3: retry exhaustion -/

/-- C3.  When every one of the `max_retries + 1` attempts fails with a
network/IO error, `download_with_retry` raises `DownloadError` wrapping
the last underlying error, and no file — partial or otherwise — remains
at the destination. -/
theorem retry_exhaustion (net : Nat → NetOutcome) (url dest : String)
    (maxRetries : Nat) (fs : FS)
    (hfail : ∀ i, i ≤ maxRetries → (net i).isErr = true) :
    (downloadWithRetry net url dest maxRetries fs).result =
      .error (.downloadError (retryFailureMsg url maxRetries
        ((net maxRetries).errMsg))) ∧
    (downloadWithRetry net url dest maxRetries fs).fs dest = none := by
  obtain ⟨h1, h2, h3⟩ := downloadWithRetryGo_allFail net url dest maxRetries maxRetries
    0 fs [] (by intro k hk; simpa using hfail k hk)
  exact ⟨by simpa using h1, h3⟩

/-- Closed instance of `retry_exhaustion`: with `max_retries = 3` and
every attempt failing, the call fails and the destination is empty. -/
theorem retry_exhaustion_witness :
    (downloadWithRetry netAllFail "https://example.com/pool/tool.deb"
      "cache/tool.deb" 3 fsEmpty).result =
      .error (.downloadError (retryFailureMsg "https://example.com/pool/tool.deb" 3
        ((netAllFail 3).errMsg))) ∧
    (downloadWithRetry netAllFail "https://example.com/pool/tool.deb"
      "cache/tool.deb" 3 fsEmpty).fs "cache/tool.deb" = none :=
  retry_exhaustion netAllFail "https://example.com/pool/tool.deb" "cache/tool.deb" 3
    fsEmpty (fun _ _ => rfl)

/-! ### C4: exponential backoff schedule -/

/-- C4.  `download_with_retry` deletes any partial destination file on
each failed attempt and sleeps exactly `2 ^ i` seconds after failed
attempt `i` whenever attempts remain, with no sleep after the final
failed attempt: when all attempts fail the sleep sequence is
`2 ^ 0, …, 2 ^ (max_retries - 1)` and the destination is left empty;
when attempt `k` is the first to succeed it is `2 ^ 0, …, 2 ^ (k - 1)`;
and with `max_retries = 3` and all attempts failing it is exactly
`1, 2, 4` seconds. -/
theorem retry_backoff_schedule (net : Nat → NetOutcome) (url dest : String)
    (maxRetries : Nat) (fs : FS) :
    ((∀ i, i ≤ maxRetries → (net i).isErr = true) →
      (downloadWithRetry net url dest maxRetries fs).sleeps =
        (List.range maxRetries).map (fun i => 2 ^ i) ∧
      (downloadWithRetry net url dest maxRetries fs).fs dest = none) ∧
    (∀ k c, k ≤ maxRetries → (∀ i, i < k → (net i).isErr = true) → net k = .ok c →
      (downloadWithRetry net url dest maxRetries fs).sleeps =
        (List.range k).map (fun i => 2 ^ i)) ∧
    ((∀ i, i ≤ 3 → (net i).isErr = true) →
      (downloadWithRetry net url dest 3 fs).sleeps = [1, 2, 4]) := by
  refine ⟨?_, ?_, ?_⟩
  · intro hfail
    obtain ⟨h1, h2, h3⟩ := downloadWithRetryGo_allFail net url dest maxRetries maxRetries
      0 fs [] (by intro k hk; simpa using hfail k hk)
    exact ⟨by simpa using h2, h3⟩
  · intro k c hk hfail hok
    obtain ⟨h1, h2, h3⟩ := downloadWithRetryGo_okAt net url dest maxRetries k maxRetries
      0 fs [] c hk (by intro i hi; simpa using hfail i hi) (by simpa using hok)
    simpa using h2
  · intro hfail
    obtain ⟨h1, h2, h3⟩ := downloadWithRetryGo_allFail net url dest 3 3 0 fs []
      (by intro k hk; simpa using hfail k hk)
    rw [show (downloadWithRetry net url dest 3 fs).sleeps =
      (downloadWithRetryGo net url dest 3 0 3 fs []).sleeps from rfl, h2]
    rfl

/-- Closed instance of `retry_backoff_schedule`: the sleeps with
`max_retries = 3` and every attempt failing are `[1, 2, 4]`. -/
theorem retry_backoff_schedule_witness :
    (downloadWithRetry netAllFail "https://example.com/pool/tool.deb"
      "cache/tool.deb" 3 fsEmpty).sleeps = [1, 2, 4] :=
  (retry_backoff_schedule netAllFail "https://example.com/pool/tool.deb"
    "cache/tool.deb" 3 fsEmpty).2.2 (fun _ _ => rfl)

/-! ### C1: idempotent cache hit -/

/-- C1.  When `force_download` is false and a file that passes
verification against the declared digest/size sits at the computed
cache path, `download_package` returns that cached path with the
filesystem untouched and zero network requests; consequently, after any
successful call, a second call on the resulting filesystem (under any
network conditions) performs zero network requests, returns the same
path and leaves the file — hence its digest and size — unchanged. -/
theorem package_cache_hit_idempotent
    (sha : Content → String) (net net2 : Nat → NetOutcome) (cacheDir : String)
    (pkg : PackageInfo) (fs : FS) :
    ((fs (cachePathOf cacheDir pkg)).isSome = true →
      verifyFile sha fs (cachePathOf cacheDir pkg) pkg.sha256 pkg.sizeBytes = true →
      downloadPackage sha net cacheDir pkg false fs =
        { result := .ok (cachePathOf cacheDir pkg), fs := fs, fetchCount := 0,
          hashCount := verifyFileHashes fs (cachePathOf cacheDir pkg)
            pkg.sha256 pkg.sizeBytes }) ∧
    (∀ (b : Bool) (p : String),
      (downloadPackage sha net cacheDir pkg b fs).result = .ok p →
      downloadPackage sha net2 cacheDir pkg false
          ((downloadPackage sha net cacheDir pkg b fs).fs) =
        { result := .ok p, fs := (downloadPackage sha net cacheDir pkg b fs).fs,
          fetchCount := 0,
          hashCount := verifyFileHashes ((downloadPackage sha net cacheDir pkg b fs).fs)
            p pkg.sha256 pkg.sizeBytes }) := by
  constructor
  · intro hsome hvalid
    exact downloadPackage_cache_hit sha net cacheDir pkg fs hsome hvalid
  · intro b p h
    obtain ⟨hp, hsome, hv⟩ := downloadPackage_ok_post sha net cacheDir pkg b fs p h
    subst hp
    exact downloadPackage_cache_hit sha net2 cacheDir pkg _ hsome hv

/-- Closed instance of `package_cache_hit_idempotent`: a valid cached
file is returned as-is with zero fetches. -/
theorem package_cache_hit_idempotent_witness :
    downloadPackage shaW netSuccess "cache" pkgDeclared false fsCachedPkg =
      { result := .ok (cachePathOf "cache" pkgDeclared), fs := fsCachedPkg,
        fetchCount := 0,
        hashCount := verifyFileHashes fsCachedPkg (cachePathOf "cache" pkgDeclared)
          pkgDeclared.sha256 pkgDeclared.sizeBytes } :=
  (package_cache_hit_idempotent shaW netSuccess netSuccess "cache" pkgDeclared
    fsCachedPkg).1 (by rfl) (by rfl)

/-! ### C2: integrity-failure atomicity -/

/-- C2.  Whenever `download_package` reaches the fresh-download phase,
the fetch succeeds, and the downloaded bytes fail a declared check,
the call raises `ValueError` and no file remains at the cache path. -/
theorem package_integrity_failure_atomic
    (sha : Content → String) (net : Nat → NetOutcome) (cacheDir : String)
    (pkg : PackageInfo) (forceDownload : Bool) (fs : FS) (c : Content)
    (hmiss : forceDownload = true ∨ fs (cachePathOf cacheDir pkg) = none ∨
      verifyFile sha fs (cachePathOf cacheDir pkg) pkg.sha256 pkg.sizeBytes = false)
    (hnet : net 0 = .ok c)
    (hbad : contentOk sha c pkg.sha256 pkg.sizeBytes = false) :
    (downloadPackage sha net cacheDir pkg forceDownload fs).result =
      .error (.valueError
        ("Downloaded file verification failed: " ++ cachePathOf cacheDir pkg)) ∧
    (downloadPackage sha net cacheDir pkg forceDownload fs).fs
      (cachePathOf cacheDir pkg) = none := by
  have hfresh : ∀ (fs0 : FS) (hashes : Nat),
      (downloadFresh sha net (cachePathOf cacheDir pkg) pkg fs0 hashes).result =
        .error (.valueError
          ("Downloaded file verification failed: " ++ cachePathOf cacheDir pkg)) ∧
      (downloadFresh sha net (cachePathOf cacheDir pkg) pkg fs0 hashes).fs
        (cachePathOf cacheDir pkg) = none := by
    intro fs0 hashes
    rw [downloadFresh_ok_fail sha net _ pkg fs0 hashes c hnet hbad]
    exact ⟨rfl, by simp [fsErase]⟩
  cases forceDownload with
  | true =>
    simpa only [downloadPackage, Bool.not_true, Bool.false_and, Bool.false_eq_true,
      if_false] using hfresh fs 0
  | false =>
    cases hs : (fs (cachePathOf cacheDir pkg)).isSome with
    | false =>
      simpa only [downloadPackage, Bool.not_false, Bool.true_and, hs,
        Bool.false_eq_true, if_false] using hfresh fs 0
    | true =>
      cases hv : verifyFile sha fs (cachePathOf cacheDir pkg) pkg.sha256 pkg.sizeBytes with
      | false =>
        simpa only [downloadPackage, Bool.not_false, Bool.true_and, hs, if_true, hv,
          Bool.false_eq_true, if_false] using
          hfresh (fsErase fs (cachePathOf cacheDir pkg))
            (verifyFileHashes fs (cachePathOf cacheDir pkg) pkg.sha256 pkg.sizeBytes)
      | true =>
        rcases hmiss with h1 | h2 | h3
        · exact absurd h1 (by simp)
        · rw [h2] at hs; exact absurd hs (by simp)
        · rw [hv] at h3; exact absurd h3 (by simp)

/-- Closed instance of `package_integrity_failure_atomic`: a declared
digest mismatching the downloaded bytes yields `ValueError` and an
empty cache slot. -/
theorem package_integrity_failure_atomic_witness :
    (downloadPackage shaW netSuccess "cache" pkgWrongDigest false fsEmpty).result =
      .error (.valueError
        ("Downloaded file verification failed: " ++ cachePathOf "cache" pkgWrongDigest)) ∧
    (downloadPackage shaW netSuccess "cache" pkgWrongDigest false fsEmpty).fs
      (cachePathOf "cache" pkgWrongDigest) = none :=
  package_integrity_failure_atomic shaW netSuccess "cache" pkgWrongDigest false fsEmpty
    [1, 2, 3] (Or.inr (Or.inl rfl)) rfl (by rfl)

/-! ### C9: cleanup on any failure of the fresh-fetch path -/

/-- C9.  Whatever exception `download_package` raises — a network
failure of the fetch or a verification failure — no file remains at the
computed cache path after the call. -/
theorem package_cleanup_on_failure
    (sha : Content → String) (net : Nat → NetOutcome) (cacheDir : String)
    (pkg : PackageInfo) (b : Bool) (fs : FS) (e : PyExc)
    (h : (downloadPackage sha net cacheDir pkg b fs).result = .error e) :
    (downloadPackage sha net cacheDir pkg b fs).fs (cachePathOf cacheDir pkg) = none := by
  cases b with
  | true =>
    simp only [downloadPackage, Bool.not_true, Bool.false_and, Bool.false_eq_true,
      if_false] at h ⊢
    exact downloadFresh_error_fs _ _ _ _ _ _ _ h
  | false =>
    cases hs : (fs (cachePathOf cacheDir pkg)).isSome with
    | false =>
      simp only [downloadPackage, Bool.not_false, Bool.true_and, hs, Bool.false_eq_true,
        if_false] at h ⊢
      exact downloadFresh_error_fs _ _ _ _ _ _ _ h
    | true =>
      cases hv : verifyFile sha fs (cachePathOf cacheDir pkg) pkg.sha256 pkg.sizeBytes with
      | true =>
        rw [downloadPackage_cache_hit sha net cacheDir pkg fs hs hv] at h
        simp at h
      | false =>
        simp only [downloadPackage, Bool.not_false, Bool.true_and, hs, if_true, hv,
          Bool.false_eq_true, if_false] at h ⊢
        exact downloadFresh_error_fs _ _ _ _ _ _ _ h

/-- Closed instance of `package_cleanup_on_failure`: after a failed
fetch nothing remains at the cache path. -/
theorem package_cleanup_on_failure_witness :
    (downloadPackage shaW netFirstFails "cache" pkgNoDigest false fsEmpty).fs
      (cachePathOf "cache" pkgNoDigest) = none :=
  package_cleanup_on_failure shaW netFirstFails "cache" pkgNoDigest false fsEmpty
    (.requestException "connection reset") (by rfl)

/-! ### C5: measured digest on success (refuted and amended) -/

/-- C5 counterexample.  A descriptor declaring no digest and no size
resolves successfully (one real fetch), yet the call computes zero
SHA-256 digests — so the returned value (a bare path) records no
measured digest, contradicting the claim that a measured digest/size is
always recorded. -/
theorem package_measured_digest_counterexample :
    (downloadPackage shaW netSuccess "cache" pkgNoDigest false fsEmpty).result =
      .ok "cache/tool.deb" ∧
    (downloadPackage shaW netSuccess "cache" pkgNoDigest false fsEmpty).hashCount = 0 ∧
    (downloadPackage shaW netSuccess "cache" pkgNoDigest false fsEmpty).fetchCount = 1 :=
  ⟨rfl, rfl, rfl⟩

/-- C5 amended.  On success `download_package` returns only the cache
path; when the descriptor declares no digest the call computes no
digest at all, so no measured digest is recorded for downstream
consumers. -/
theorem package_undeclared_digest_not_measured
    (sha : Content → String) (net : Nat → NetOutcome) (cacheDir : String)
    (pkg : PackageInfo) (b : Bool) (fs : FS) (hsha : pkg.sha256 = none) :
    (downloadPackage sha net cacheDir pkg b fs).hashCount = 0 ∧
    ∀ p, (downloadPackage sha net cacheDir pkg b fs).result = .ok p →
      p = cachePathOf cacheDir pkg := by
  constructor
  · cases b with
    | true =>
      simp only [downloadPackage, Bool.not_true, Bool.false_and, Bool.false_eq_true,
        if_false]
      exact downloadFresh_hash_none sha net _ pkg fs 0 hsha
    | false =>
      cases hs : (fs (cachePathOf cacheDir pkg)).isSome with
      | false =>
        simp only [downloadPackage, Bool.not_false, Bool.true_and, hs,
          Bool.false_eq_true, if_false]
        exact downloadFresh_hash_none sha net _ pkg fs 0 hsha
      | true =>
        cases hv : verifyFile sha fs (cachePathOf cacheDir pkg) pkg.sha256 pkg.sizeBytes with
        | true =>
          rw [downloadPackage_cache_hit sha net cacheDir pkg fs hs hv]
          simp [hsha, verifyFileHashes_sha_none]
        | false =>
          simp only [downloadPackage, Bool.not_false, Bool.true_and, hs, if_true, hv,
            Bool.false_eq_true, if_false]
          rw [downloadFresh_hash_none sha net _ pkg _ _ hsha, hsha,
            verifyFileHashes_sha_none]
  · intro p h
    exact (downloadPackage_ok_post sha net cacheDir pkg b fs p h).1

/-- Closed instance of `package_undeclared_digest_not_measured`. -/
theorem package_undeclared_digest_not_measured_witness :
    (downloadPackage shaW netSuccess "cache" pkgNoDigest false fsEmpty).hashCount = 0 ∧
    ∀ p, (downloadPackage shaW netSuccess "cache" pkgNoDigest false fsEmpty).result =
      .ok p → p = cachePathOf "cache" pkgNoDigest :=
  package_undeclared_digest_not_measured shaW netSuccess "cache" pkgNoDigest false
    fsEmpty rfl

/-! ### C6: resolve error taxonomy for remote misses (refuted and amended) -/

/-- C6 counterexample.  On a network where attempt 0 fails and attempt
1 would succeed, `download_package` performs exactly one GET and raises
the underlying `requests.RequestException` — not `DownloadError` —
while `download_with_retry` on the same network succeeds: the package
downloader does not fetch via the retrying fetcher. -/
theorem package_fetch_not_retried_counterexample :
    (downloadPackage shaW netFirstFails "cache" pkgNoDigest false fsEmpty).result =
      .error (.requestException "connection reset") ∧
    (downloadPackage shaW netFirstFails "cache" pkgNoDigest false fsEmpty).fetchCount = 1 ∧
    (downloadWithRetry netFirstFails "https://example.com/pool/tool.deb"
      "cache/tool.deb" 3 fsEmpty).result = .ok () ∧
    (downloadWithRetry netFirstFails "https://example.com/pool/tool.deb"
      "cache/tool.deb" 3 fsEmpty).fs "cache/tool.deb" = some ⟨[7], false⟩ :=
  ⟨rfl, rfl, rfl, rfl⟩

/-- C6 amended.  `download_package` issues at most one GET per call (no
retry), and a failed call raises either the underlying request
exception propagated unchanged or — only for verification failure —
`ValueError`; `DownloadError` is never raised. -/
theorem package_single_fetch_error_taxonomy
    (sha : Content → String) (net : Nat → NetOutcome) (cacheDir : String)
    (pkg : PackageInfo) (b : Bool) (fs : FS) :
    (downloadPackage sha net cacheDir pkg b fs).fetchCount ≤ 1 ∧
    ∀ e, (downloadPackage sha net cacheDir pkg b fs).result = .error e →
      (∃ m, e = .requestException m) ∨
        e = .valueError ("Downloaded file verification failed: " ++
          cachePathOf cacheDir pkg) := by
  cases b with
  | true =>
    simp only [downloadPackage, Bool.not_true, Bool.false_and, Bool.false_eq_true,
      if_false]
    exact ⟨le_of_eq (downloadFresh_fetchCount _ _ _ _ _ _),
      fun e h => downloadFresh_error_shape _ _ _ _ _ _ e h⟩
  | false =>
    cases hs : (fs (cachePathOf cacheDir pkg)).isSome with
    | false =>
      simp only [downloadPackage, Bool.not_false, Bool.true_and, hs,
        Bool.false_eq_true, if_false]
      exact ⟨le_of_eq (downloadFresh_fetchCount _ _ _ _ _ _),
        fun e h => downloadFresh_error_shape _ _ _ _ _ _ e h⟩
    | true =>
      cases hv : verifyFile sha fs (cachePathOf cacheDir pkg) pkg.sha256 pkg.sizeBytes with
      | true =>
        rw [downloadPackage_cache_hit sha net cacheDir pkg fs hs hv]
        exact ⟨by simp, fun e h => absurd h (by simp)⟩
      | false =>
        simp only [downloadPackage, Bool.not_false, Bool.true_and, hs, if_true, hv,
          Bool.false_eq_true, if_false]
        exact ⟨le_of_eq (downloadFresh_fetchCount _ _ _ _ _ _),
          fun e h => downloadFresh_error_shape _ _ _ _ _ _ e h⟩

/-- Closed instance of `package_single_fetch_error_taxonomy`. -/
theorem package_single_fetch_error_taxonomy_witness :
    (∃ m, PyExc.requestException "connection reset" = .requestException m) ∨
      PyExc.requestException "connection reset" =
        .valueError ("Downloaded file verification failed: " ++
          cachePathOf "cache" pkgNoDigest) :=
  (package_single_fetch_error_taxonomy shaW netFirstFails "cache" pkgNoDigest false
    fsEmpty).2 (.requestException "connection reset") (by rfl)

/-! ### C10: checksum-free script cache hit skips executable enforcement -/

/-- C10.  With no declared digest and `force_download = false`,
`download_script` returns an existing cached file as-is: it computes no
hash and leaves the filesystem — including the executable bit —
completely untouched, even when `script.executable` is true.  By
contrast, the digest-verified cache hit sets the executable bit on the
cached file, and a successful fresh download sets it on the new file. -/
theorem script_nohash_cache_hit_skips_exec
    (sha : Content → String) (net : Nat → NetOutcome) (isValidContent : Content → Bool)
    (validateScripts : Bool) (cacheDir : String) (s : ScriptInfo)
    (validateOverride : Option Bool) (fs : FS) :
    (s.sha256 = none → (fs (scriptCachePathOf cacheDir s)).isSome = true →
      downloadScript sha net isValidContent validateScripts cacheDir s false
          validateOverride fs =
        { result := .ok (scriptCachePathOf cacheDir s), fs := fs, fetchCount := 0,
          hashCount := 0 }) ∧
    (∀ h d, s.sha256 = some h → fs (scriptCachePathOf cacheDir s) = some d →
      sha d.content = h → s.executable = true →
      downloadScript sha net isValidContent validateScripts cacheDir s false
          validateOverride fs =
        { result := .ok (scriptCachePathOf cacheDir s),
          fs := fsSetExec fs (scriptCachePathOf cacheDir s), fetchCount := 0,
          hashCount := 1 } ∧
      fsSetExec fs (scriptCachePathOf cacheDir s) (scriptCachePathOf cacheDir s) =
        some { d with exec := true }) ∧
    (∀ c, fs (scriptCachePathOf cacheDir s) = none → net 0 = .ok c →
      (s.sha256 = none ∨ s.sha256 = some (sha c)) →
      (validateScripts = true → isValidContent c = true) → s.executable = true →
      (downloadScript sha net isValidContent validateScripts cacheDir s false
          validateOverride fs).result = .ok (scriptCachePathOf cacheDir s) ∧
      (downloadScript sha net isValidContent validateScripts cacheDir s false
          validateOverride fs).fs (scriptCachePathOf cacheDir s) =
        some ⟨c, true⟩) := by
  refine ⟨?_, ?_, ?_⟩
  · intro hsha hsome
    obtain ⟨d, hd⟩ := Option.isSome_iff_exists.mp hsome
    simp [downloadScript, hd, hsha]
  · intro h d hsha hd hmatch hexec
    constructor
    · simp [downloadScript, hd, hsha, hmatch, hexec]
    · simp [fsSetExec, hd]
  · intro c hnone hnet hsha hvalid hexec
    have hval : (((validateOverride.getD validateScripts) && validateScripts) &&
        !(isValidContent c)) = false := by
      cases hvs : validateScripts
      · simp
      · simp [hvalid hvs]
    rcases hsha with hn | hs
    · constructor <;>
        simp [downloadScript, hnone, scriptFresh, hnet, hn, scriptFinish, hval,
          hexec, fsSetExec, fsWrite]
    · constructor <;>
        simp [downloadScript, hnone, scriptFresh, hnet, hs, scriptFinish, hval,
          hexec, fsSetExec, fsWrite]

/-- Closed instance of `script_nohash_cache_hit_skips_exec`: a cached,
non-executable script with no declared digest is returned unchanged
although `executable` was requested. -/
theorem script_nohash_cache_hit_skips_exec_witness :
    downloadScript shaW netSuccess (fun _ => true) true "cache" scrNoDigest false none
        fsCachedScript =
      { result := .ok (scriptCachePathOf "cache" scrNoDigest), fs := fsCachedScript,
        fetchCount := 0, hashCount := 0 } :=
  (script_nohash_cache_hit_skips_exec shaW netSuccess (fun _ => true) true "cache"
    scrNoDigest none fsCachedScript).1 rfl (by rfl)

/-! ### String and list lemmas for the scanner -/

theorem string_append_left_cancel {a b c : String} (h : a ++ b = a ++ c) : b = c := by
  have hd := congrArg String.data h
  rw [String.data_append, String.data_append] at hd
  exact String.ext (List.append_cancel_left hd)

theorem beq_append_left (P a b : String) : ((P ++ a) == (P ++ b)) = (a == b) := by
  cases hab : (a == b) with
  | false =>
    rw [Bool.eq_false_iff]
    intro hbeq
    have := string_append_left_cancel (beq_iff_eq.mp hbeq)
    rw [this] at hab
    simp at hab
  | true =>
    rw [beq_iff_eq]
    exact congrArg (fun s => P ++ s) (beq_iff_eq.mp hab)

theorem find?_path_self {L : List AssetInfo} (hnd : (L.map AssetInfo.path).Nodup)
    {m : AssetInfo} (hm : m ∈ L) :
    L.find? (fun c => c.path == m.path) = some m := by
  induction L with
  | nil => cases hm
  | cons x xs ih =>
    simp only [List.map_cons, List.nodup_cons] at hnd
    rcases List.mem_cons.mp hm with rfl | hm'
    · simp [List.find?]
    · have hfalse : (x.path == m.path) = false := by
        rw [Bool.eq_false_iff]
        intro hbeq
        rw [beq_iff_eq] at hbeq
        exact hnd.1 (hbeq ▸ List.mem_map_of_mem _ hm')
      simp only [List.find?, hfalse]
      exact ih hnd.2 hm'

theorem find?_filter_path_ne (L : List AssetInfo) (e : AssetInfo) :
    (L.filter (fun c => !(c.path == e.path))).find? (fun c => c.path == e.path) =
      none := by
  rw [List.find?_eq_none]
  intro x hx
  have hmem := (List.mem_filter.mp hx).2
  simp only [Bool.not_eq_true'] at hmem
  simp [hmem]

theorem verifySection_eq_nil (ml mml : String) (M L : List AssetInfo)
    (hM : ∀ m ∈ M, L.find? (fun c => c.path == m.path) = some m) :
    verifySection ml mml M L = [] := by
  induction M with
  | nil => rfl
  | cons m rest ih =>
    simp only [verifySection, hM m (List.mem_cons_self m rest)]
    simp only [ne_eq, not_true_eq_false, if_false, List.nil_append]
    exact ih fun x hx => hM x (List.mem_cons_of_mem m hx)

theorem verifySection_append (ml mml : String) (M1 M2 L : List AssetInfo) :
    verifySection ml mml (M1 ++ M2) L =
      verifySection ml mml M1 L ++ verifySection ml mml M2 L := by
  induction M1 with
  | nil => rfl
  | cons m rest ih => simp [verifySection, ih]

theorem verifySection_delete_one (ml mml : String) (L : List AssetInfo) (e : AssetInfo)
    (hnd : (L.map AssetInfo.path).Nodup) (he : e ∈ L) :
    verifySection ml mml L (L.filter (fun c => !(c.path == e.path))) =
      [ml ++ e.path] := by
  obtain ⟨L1, L2, rfl⟩ := List.append_of_mem he
  set L' := (L1 ++ e :: L2).filter (fun c => !(c.path == e.path)) with hL'
  have hndL' : (L'.map AssetInfo.path).Nodup :=
    hnd.sublist (List.Sublist.map _ (List.filter_sublist _))
  have hpathne : ∀ m ∈ L1 ++ L2, m.path ≠ e.path := by
    intro m hm hpe
    have hmL : m ∈ L1 ++ e :: L2 := by
      rcases List.mem_append.mp hm with h | h
      · exact List.mem_append.mpr (Or.inl h)
      · exact List.mem_append.mpr (Or.inr (List.mem_cons_of_mem _ h))
    have hme : m = e :=
      List.inj_on_of_nodup_map hnd hmL (by simp) hpe
    subst hme
    rw [List.map_append, List.map_cons] at hnd
    rcases List.mem_append.mp hm with h | h
    · exact (List.nodup_append.mp hnd).2.2 (List.mem_map_of_mem _ h)
        (List.mem_cons_self _ _)
    · exact (List.nodup_cons.mp (List.nodup_append.mp hnd).2.1).1
        (List.mem_map_of_mem _ h)
  have hfind : ∀ m ∈ L1 ++ L2, L'.find? (fun c => c.path == m.path) = some m := by
    intro m hm
    apply find?_path_self hndL'
    apply List.mem_filter.mpr
    constructor
    · rcases List.mem_append.mp hm with h | h
      · exact List.mem_append.mpr (Or.inl h)
      · exact List.mem_append.mpr (Or.inr (List.mem_cons_of_mem _ h))
    · simp [hpathne m hm]
  have hmid := find?_filter_path_ne (L1 ++ e :: L2) e
  rw [← hL'] at hmid
  rw [show L1 ++ e :: L2 = L1 ++ [e] ++ L2 by simp]
  rw [verifySection_append, verifySection_append]
  rw [verifySection_eq_nil ml mml L1 L'
    (fun m hm => hfind m (List.mem_append.mpr (Or.inl hm)))]
  rw [verifySection_eq_nil ml mml L2 L'
    (fun m hm => hfind m (List.mem_append.mpr (Or.inr hm)))]
  simp [verifySection, hmid]

/-! ### Scanner lemmas -/

theorem scanDirectory_path_eq (md5 sha : Content → String)
    (baseName subdir ftype : String) (exts : List String) (files : List SrcFile)
    (a : AssetInfo) (ha : a ∈ scanDirectory md5 sha baseName subdir ftype exts files) :
    a.path = baseName ++ "/" ++ subdir ++ "/" ++ a.name := by
  unfold scanDirectory at ha
  obtain ⟨f, _, rfl⟩ := List.mem_map.mp ha
  rfl

theorem scanDirectory_paths_nodup (md5 sha : Content → String)
    (baseName subdir ftype : String) (exts : List String) (files : List SrcFile)
    (hnd : (files.map (·.name)).Nodup) :
    ((scanDirectory md5 sha baseName subdir ftype exts files).map
      AssetInfo.path).Nodup := by
  unfold scanDirectory
  rw [List.map_map]
  have hcomp : (AssetInfo.path ∘ fun f : SrcFile =>
      ({ path := baseName ++ "/" ++ subdir ++ "/" ++ f.name, name := f.name,
         size := f.content.length, md5 := md5 f.content, sha256 := sha f.content,
         type := ftype, executable := f.exec } : AssetInfo)) =
      ((fun nm => baseName ++ "/" ++ subdir ++ "/" ++ nm) ∘
        fun f : SrcFile => f.name) := rfl
  rw [hcomp, ← List.map_map]
  have hsub : ((files.filter
      (fun f => exts.isEmpty || exts.contains (pathSuffix f.name))).map
        (fun f : SrcFile => f.name)).Nodup :=
    hnd.sublist (List.Sublist.map _ (List.filter_sublist _))
  exact hsub.map fun a b hab => string_append_left_cancel hab

theorem filter_map_filter_comm {α β : Type} (g : α → β) (p q : α → Bool)
    (q' : β → Bool) (hq : ∀ a, q' (g a) = q a) (l : List α) :
    ((l.filter q).filter p).map g = ((l.filter p).map g).filter q' := by
  rw [List.filter_filter, List.filter_map, List.filter_filter]
  congr 1
  apply List.filter_congr
  intro a _
  simp [Function.comp, hq a, Bool.and_comm]

theorem scanDirectory_filter_name (md5 sha : Content → String)
    (baseName subdir ftype : String) (exts : List String) (files : List SrcFile)
    (n : String) :
    scanDirectory md5 sha baseName subdir ftype exts
        (files.filter (fun f => !(f.name == n))) =
      (scanDirectory md5 sha baseName subdir ftype exts files).filter
        (fun a => !(a.name == n)) := by
  unfold scanDirectory
  exact filter_map_filter_comm _ _ (fun f : SrcFile => !(f.name == n))
    (fun a : AssetInfo => !(a.name == n)) (fun a => rfl) files

theorem verify_scan_self (ml mml : String) (md5 sha : Content → String)
    (baseName subdir ftype : String) (exts : List String) (files : List SrcFile)
    (hnd : (files.map (·.name)).Nodup) :
    verifySection ml mml (scanDirectory md5 sha baseName subdir ftype exts files)
      (scanDirectory md5 sha baseName subdir ftype exts files) = [] := by
  apply verifySection_eq_nil
  intro m hm
  exact find?_path_self
    (scanDirectory_paths_nodup md5 sha baseName subdir ftype exts files hnd) hm

theorem verify_scan_delete (ml mml : String) (md5 sha : Content → String)
    (baseName subdir ftype : String) (exts : List String) (files : List SrcFile)
    (hnd : (files.map (·.name)).Nodup) (a : AssetInfo)
    (ha : a ∈ scanDirectory md5 sha baseName subdir ftype exts files) :
    verifySection ml mml (scanDirectory md5 sha baseName subdir ftype exts files)
      (scanDirectory md5 sha baseName subdir ftype exts
        (files.filter (fun f => !(f.name == a.name)))) = [ml ++ a.path] := by
  rw [scanDirectory_filter_name]
  have hcongr : (scanDirectory md5 sha baseName subdir ftype exts files).filter
      (fun c => !(c.name == a.name)) =
      (scanDirectory md5 sha baseName subdir ftype exts files).filter
        (fun c => !(c.path == a.path)) := by
    apply List.filter_congr
    intro c hc
    rw [scanDirectory_path_eq md5 sha baseName subdir ftype exts files c hc,
      scanDirectory_path_eq md5 sha baseName subdir ftype exts files a ha,
      beq_append_left]
  rw [hcongr]
  exact verifySection_delete_one ml mml _ a
    (scanDirectory_paths_nodup md5 sha baseName subdir ftype exts files hnd) ha

/-! ### C8: manifest round-trip -/

/-- C8.  Writing a manifest of a scanned tree and verifying the
unmodified tree against it yields an empty error list; after deleting
exactly one file that the manifest recorded (of any of the three
kinds), verification yields exactly one "missing" error naming that
file's recorded path.  (Duplicate-free file names per directory, as on
a real filesystem.) -/
theorem manifest_round_trip (md5 sha : Content → String) (t : AssetTree)
    (hp : (t.packages.map (·.name)).Nodup)
    (hs : (t.scripts.map (·.name)).Nodup)
    (hi : (t.isoFiles.map (·.name)).Nodup) :
    verifyAssets md5 sha (saveAssetManifest md5 sha t) t = [] ∧
    (∀ a ∈ (saveAssetManifest md5 sha t).packages,
      verifyAssets md5 sha (saveAssetManifest md5 sha t)
        (deletePackageFile t a.name) = ["Package missing: " ++ a.path]) ∧
    (∀ a ∈ (saveAssetManifest md5 sha t).scripts,
      verifyAssets md5 sha (saveAssetManifest md5 sha t)
        (deleteScriptFile t a.name) = ["Script missing: " ++ a.path]) ∧
    (∀ a ∈ (saveAssetManifest md5 sha t).isoFiles,
      verifyAssets md5 sha (saveAssetManifest md5 sha t)
        (deleteIsoFile t a.name) = ["ISO file missing: " ++ a.path]) := by
  refine ⟨?_, ?_, ?_, ?_⟩
  · simp only [verifyAssets, saveAssetManifest, scanPackages, scanScripts, scanIsoFiles]
    rw [verify_scan_self _ _ md5 sha _ _ _ _ _ hp,
      verify_scan_self _ _ md5 sha _ _ _ _ _ hs,
      verify_scan_self _ _ md5 sha _ _ _ _ _ hi]
    rfl
  · intro a ha
    simp only [saveAssetManifest, scanPackages] at ha
    simp only [verifyAssets, saveAssetManifest, scanPackages, scanScripts, scanIsoFiles,
      deletePackageFile]
    rw [verify_scan_delete _ _ md5 sha _ _ _ _ _ hp a ha,
      verify_scan_self _ _ md5 sha _ _ _ _ _ hs,
      verify_scan_self _ _ md5 sha _ _ _ _ _ hi]
    rfl
  · intro a ha
    simp only [saveAssetManifest, scanScripts] at ha
    simp only [verifyAssets, saveAssetManifest, scanPackages, scanScripts, scanIsoFiles,
      deleteScriptFile]
    rw [verify_scan_self _ _ md5 sha _ _ _ _ _ hp,
      verify_scan_delete _ _ md5 sha _ _ _ _ _ hs a ha,
      verify_scan_self _ _ md5 sha _ _ _ _ _ hi]
    rfl
  · intro a ha
    simp only [saveAssetManifest, scanIsoFiles] at ha
    simp only [verifyAssets, saveAssetManifest, scanPackages, scanScripts, scanIsoFiles,
      deleteIsoFile]
    rw [verify_scan_self _ _ md5 sha _ _ _ _ _ hp,
      verify_scan_self _ _ md5 sha _ _ _ _ _ hs,
      verify_scan_delete _ _ md5 sha _ _ _ _ _ hi a ha]
    rfl

/-- Closed instance of `manifest_round_trip` on a concrete tree:
verification of the unmodified tree reports nothing, and deleting the
recorded package `a.deb` reports exactly its missing path. -/
theorem manifest_round_trip_witness :
    verifyAssets md5W shaW (saveAssetManifest md5W shaW treeW) treeW = [] ∧
    verifyAssets md5W shaW (saveAssetManifest md5W shaW treeW)
        (deletePackageFile treeW "a.deb") =
      ["Package missing: local_assets/packages/a.deb"] := by
  have h := manifest_round_trip md5W shaW treeW (by decide) (by decide) (by decide)
  exact ⟨h.1, h.2.1 pkgAssetW (by decide)⟩

end UbuntuFAI
